import Mathlib

set_option maxRecDepth 40000

/- Verification of the OSI-model protocol stack (the `osi_model` package:
   layers/layer.py, layers/physical.py, layers/datalink.py, layers/network.py,
   layers/transport.py, layers/session.py, layers/presentation.py,
   layers/application.py, wired by main.py; the repository also carries a
   monolithic draft variant osi.py whose `Layer.receive_up` differs).

   Byte strings are modelled as `List Nat`; where byte-ness matters a
   well-formedness hypothesis `∀ b ∈ l, b < 256` is carried.  Python `None`
   and uncaught exceptions are modelled with `Option`/`none` as noted at each
   definition. -/

namespace OSI

abbrev Bytes := List Nat

/-- `struct.pack('!H', v)` (big-endian 16-bit).  Python raises for
    `v ≥ 2^16`; theorems use this only under that bound, where the two
    agree. -/
def pack2 (v : Nat) : Bytes := [v / 256 % 256, v % 256]

/-- `struct.pack('!I', v)` (big-endian 32-bit). -/
def pack4 (v : Nat) : Bytes :=
  [v / 16777216 % 256, v / 65536 % 256, v / 256 % 256, v % 256]

/-- `struct.pack('!Q', v)` (big-endian 64-bit). -/
def pack8 (v : Nat) : Bytes :=
  [v / 72057594037927936 % 256, v / 281474976710656 % 256,
   v / 1099511627776 % 256, v / 4294967296 % 256, v / 16777216 % 256,
   v / 65536 % 256, v / 256 % 256, v % 256]

/-- `struct.unpack('!H', l)[0]` on a 2-byte slice. -/
def unpack2 (l : Bytes) : Nat := l.getD 0 0 * 256 + l.getD 1 0

/-- `struct.unpack('!I', l)[0]` on a 4-byte slice. -/
def unpack4 (l : Bytes) : Nat :=
  ((l.getD 0 0 * 256 + l.getD 1 0) * 256 + l.getD 2 0) * 256 + l.getD 3 0

theorem unpack2_pack2 {v : Nat} (h : v < 65536) : unpack2 (pack2 v) = v := by
  simp only [pack2, unpack2, List.getD_cons_zero, List.getD_cons_succ]
  omega

theorem unpack4_pack4 {v : Nat} (h : v < 4294967296) : unpack4 (pack4 v) = v := by
  simp only [pack4, unpack4, List.getD_cons_zero, List.getD_cons_succ]
  omega

theorem pack2_length (v : Nat) : (pack2 v).length = 2 := rfl

theorem pack4_length (v : Nat) : (pack4 v).length = 4 := rfl

theorem pack8_length (v : Nat) : (pack8 v).length = 8 := rfl

/- ## Checksums

`zlib.adler32` and `zlib.crc32` are the two checksum primitives the stack
uses (transport.py `_calculate_checksum`, datalink.py `_calculate_fcs`).
They are modelled by their standard bit-level definitions. -/

/-- One byte of the Adler-32 state update:
    `a := (a + byte) % 65521; b := (b + a) % 65521`. -/
def adlerStep (p : Nat × Nat) (byte : Nat) : Nat × Nat :=
  let a := (p.1 + byte) % 65521
  (a, (p.2 + a) % 65521)

/-- `zlib.adler32(data)`: fold the state update over the bytes starting from
    `(1, 0)` and combine as `b * 2^16 + a`. -/
def adler32 (data : Bytes) : Nat :=
  let p := data.foldl adlerStep (1, 0)
  p.2 * 65536 + p.1

theorem adler32_state_lt (data : Bytes) (p : Nat × Nat)
    (h1 : p.1 < 65521) (h2 : p.2 < 65521) :
    (data.foldl adlerStep p).1 < 65521 ∧ (data.foldl adlerStep p).2 < 65521 := by
  induction data generalizing p with
  | nil => exact ⟨h1, h2⟩
  | cons b rest ih =>
    exact ih _ (Nat.mod_lt _ (by omega)) (Nat.mod_lt _ (by omega))

theorem adler32_lt (data : Bytes) : adler32 data < 4294967296 := by
  have := adler32_state_lt data (1, 0) (by omega) (by omega)
  simp only [adler32]
  omega

/-- One bit of the (reflected) CRC-32 state update:
    `crc = (crc >> 1) ^ (0xEDB88320 if crc & 1 else 0)`. -/
def crcStep (t : Nat) : Nat :=
  if t % 2 = 1 then (t / 2) ^^^ 0xEDB88320 else t / 2

def crcSteps : Nat → Nat → Nat
  | 0, t => t
  | n + 1, t => crcSteps n (crcStep t)

/-- One byte of the CRC-32 update: `crc ^= byte` then eight bit steps. -/
def crcByte (s b : Nat) : Nat := crcSteps 8 (s ^^^ b)

/-- `zlib.crc32(data) & 0xFFFFFFFF`: the standard reflected CRC-32
    (polynomial 0xEDB88320, initial value and final XOR 0xFFFFFFFF). -/
def crc32 (data : Bytes) : Nat :=
  (data.foldl crcByte 0xFFFFFFFF) ^^^ 0xFFFFFFFF

theorem xor_lt_32 {a b : Nat} (ha : a < 4294967296) (hb : b < 4294967296) :
    a ^^^ b < 4294967296 := by
  have h : a ^^^ b < 2 ^ 32 := Nat.xor_lt_two_pow (by omega) (by omega)
  omega

theorem crcStep_lt {t : Nat} (h : t < 4294967296) : crcStep t < 4294967296 := by
  unfold crcStep
  split
  · exact xor_lt_32 (by omega) (by norm_num)
  · omega

theorem crcSteps_lt {n t : Nat} (h : t < 4294967296) : crcSteps n t < 4294967296 := by
  induction n generalizing t with
  | zero => exact h
  | succ n ih => exact ih (crcStep_lt h)

theorem crcByte_lt {s b : Nat} (hs : s < 4294967296) (hb : b < 256) :
    crcByte s b < 4294967296 := by
  unfold crcByte
  exact crcSteps_lt (xor_lt_32 hs (by omega))

theorem crcStep_inj {t1 t2 : Nat} (h1 : t1 < 4294967296) (h2 : t2 < 4294967296)
    (h : crcStep t1 = crcStep t2) : t1 = t2 := by
  have hb1 : t1 / 2 < 2 ^ 31 := by omega
  have hb2 : t2 / 2 < 2 ^ 31 := by omega
  unfold crcStep at h
  by_cases p1 : t1 % 2 = 1 <;> by_cases p2 : t2 % 2 = 1
  · rw [if_pos p1, if_pos p2] at h
    have := Nat.xor_left_injective h
    omega
  · rw [if_pos p1, if_neg p2] at h
    have hx := congrArg (fun x => Nat.testBit x 31) h
    simp only [Nat.testBit_xor, Nat.testBit_eq_false_of_lt hb1,
      Nat.testBit_eq_false_of_lt hb2] at hx
    exact absurd hx (by decide)
  · rw [if_neg p1, if_pos p2] at h
    have hx := congrArg (fun x => Nat.testBit x 31) h
    simp only [Nat.testBit_xor, Nat.testBit_eq_false_of_lt hb1,
      Nat.testBit_eq_false_of_lt hb2] at hx
    exact absurd hx (by decide)
  · rw [if_neg p1, if_neg p2] at h
    omega

theorem crcSteps_inj {n : Nat} {t1 t2 : Nat} (h1 : t1 < 4294967296)
    (h2 : t2 < 4294967296) (h : crcSteps n t1 = crcSteps n t2) : t1 = t2 := by
  induction n generalizing t1 t2 with
  | zero => exact h
  | succ n ih => exact crcStep_inj h1 h2 (ih (crcStep_lt h1) (crcStep_lt h2) h)

theorem crcByte_inj_state {s1 s2 b : Nat} (h1 : s1 < 4294967296)
    (h2 : s2 < 4294967296) (hb : b < 256) (h : crcByte s1 b = crcByte s2 b) :
    s1 = s2 := by
  unfold crcByte at h
  exact Nat.xor_left_injective
    (crcSteps_inj (xor_lt_32 h1 (by omega)) (xor_lt_32 h2 (by omega)) h)

theorem crcByte_inj_byte {s b1 b2 : Nat} (hs : s < 4294967296) (h1 : b1 < 256)
    (h2 : b2 < 256) (h : crcByte s b1 = crcByte s b2) : b1 = b2 := by
  unfold crcByte at h
  exact Nat.xor_right_injective
    (crcSteps_inj (xor_lt_32 hs (by omega)) (xor_lt_32 hs (by omega)) h)

theorem foldl_crcByte_lt {l : Bytes} {s : Nat} (hl : ∀ b ∈ l, b < 256)
    (hs : s < 4294967296) : l.foldl crcByte s < 4294967296 := by
  induction l generalizing s with
  | nil => exact hs
  | cons b rest ih =>
    exact ih (fun x hx => hl x (List.mem_cons_of_mem _ hx))
      (crcByte_lt hs (hl b (List.mem_cons_self _ _)))

theorem foldl_crcByte_ne {l : Bytes} {s1 s2 : Nat} (hl : ∀ b ∈ l, b < 256)
    (h1 : s1 < 4294967296) (h2 : s2 < 4294967296) (hne : s1 ≠ s2) :
    l.foldl crcByte s1 ≠ l.foldl crcByte s2 := by
  induction l generalizing s1 s2 with
  | nil => exact hne
  | cons b rest ih =>
    have hb : b < 256 := hl b (List.mem_cons_self _ _)
    exact ih (fun x hx => hl x (List.mem_cons_of_mem _ hx))
      (crcByte_lt h1 hb) (crcByte_lt h2 hb)
      (fun h => hne (crcByte_inj_state h1 h2 hb h))

theorem crc32_lt {l : Bytes} (hl : ∀ b ∈ l, b < 256) : crc32 l < 4294967296 :=
  xor_lt_32 (foldl_crcByte_lt hl (by norm_num)) (by norm_num)

/-- Changing a single byte anywhere in the input changes the CRC-32. -/
theorem crc32_middle_ne {pre post : Bytes} {b v : Nat}
    (hpre : ∀ x ∈ pre, x < 256) (hpost : ∀ x ∈ post, x < 256)
    (hb : b < 256) (hv : v < 256) (hne : b ≠ v) :
    crc32 (pre ++ b :: post) ≠ crc32 (pre ++ v :: post) := by
  unfold crc32
  intro h
  have h' := Nat.xor_left_injective h
  rw [List.foldl_append, List.foldl_append] at h'
  simp only [List.foldl_cons] at h'
  have hs : pre.foldl crcByte 0xFFFFFFFF < 4294967296 :=
    foldl_crcByte_lt hpre (by norm_num)
  exact foldl_crcByte_ne hpost (crcByte_lt hs hb) (crcByte_lt hs hv)
    (fun hh => hne (crcByte_inj_byte hs hb hv hh)) h'

/- ## UTF-8

application.py encodes outbound `str` messages with `.encode('utf-8')` and
decodes inbound bytes with `.decode('utf-8')` (`None` on failure).  Text is
modelled as a list of Unicode scalar values. -/

/-- A Unicode scalar value (what a Python `str` element that
    `.encode('utf-8')` accepts is): below 0x110000 and not a surrogate. -/
def ValidScalar (c : Nat) : Prop := c < 1114112 ∧ (c < 55296 ∨ 57344 ≤ c)

instance (c : Nat) : Decidable (ValidScalar c) := by
  unfold ValidScalar
  infer_instance

/-- Standard UTF-8 encoding of one scalar value. -/
def utf8EncodeChar (c : Nat) : Bytes :=
  if c < 128 then [c]
  else if c < 2048 then [192 + c / 64, 128 + c % 64]
  else if c < 65536 then [224 + c / 4096, 128 + c / 64 % 64, 128 + c % 64]
  else [240 + c / 262144, 128 + c / 4096 % 64, 128 + c / 64 % 64, 128 + c % 64]

/-- `str.encode('utf-8')`. -/
def utf8Encode : List Nat → Bytes
  | [] => []
  | c :: cs => utf8EncodeChar c ++ utf8Encode cs

/-- Decode one UTF-8 sequence from the front (rejecting truncated,
    non-continuation, overlong, surrogate and out-of-range forms, as
    Python's strict `bytes.decode('utf-8')` does). -/
def utf8DecodeChar (l : Bytes) : Option (Nat × Bytes) :=
  match l with
  | [] => none
  | b :: rest =>
    if b < 128 then some (b, rest)
    else if b < 192 then none
    else if b < 224 then
      match rest with
      | b1 :: r =>
        if 128 ≤ b1 ∧ b1 < 192 then
          let c := (b - 192) * 64 + (b1 - 128)
          if 128 ≤ c then some (c, r) else none
        else none
      | [] => none
    else if b < 240 then
      match rest with
      | b1 :: b2 :: r =>
        if (128 ≤ b1 ∧ b1 < 192) ∧ (128 ≤ b2 ∧ b2 < 192) then
          let c := (b - 224) * 4096 + (b1 - 128) * 64 + (b2 - 128)
          if 2048 ≤ c ∧ (c < 55296 ∨ 57344 ≤ c) then some (c, r) else none
        else none
      | _ => none
    else if b < 248 then
      match rest with
      | b1 :: b2 :: b3 :: r =>
        if (128 ≤ b1 ∧ b1 < 192) ∧ (128 ≤ b2 ∧ b2 < 192) ∧ (128 ≤ b3 ∧ b3 < 192) then
          let c := (b - 240) * 262144 + (b1 - 128) * 4096 + (b2 - 128) * 64 + (b3 - 128)
          if 65536 ≤ c ∧ c < 1114112 then some (c, r) else none
        else none
      | _ => none
    else none

theorem utf8DecodeChar_length {l : Bytes} {c : Nat} {r : Bytes}
    (h : utf8DecodeChar l = some (c, r)) : r.length < l.length := by
  match l with
  | [] => simp [utf8DecodeChar] at h
  | b :: rest =>
    simp only [utf8DecodeChar] at h
    repeat' split at h
    all_goals simp at h
    all_goals obtain ⟨h1, h2⟩ := h
    all_goals subst h2
    all_goals simp only [List.length_cons]
    all_goals omega

/-- Decode a whole byte string, one UTF-8 sequence at a time.  The fuel
    argument (first) only bounds the number of sequences; with fuel at least
    the byte length (each sequence consumes at least one byte) it never runs
    out. -/
def utf8DecodeAux : Nat → Bytes → Option (List Nat)
  | _, [] => some []
  | 0, _ :: _ => none
  | f + 1, b :: rest =>
    match utf8DecodeChar (b :: rest) with
    | none => none
    | some (c, r) => (utf8DecodeAux f r).map (c :: ·)

/-- `bytes.decode('utf-8')` over the whole input (`none` models Python's
    `UnicodeDecodeError`). -/
def utf8Decode (l : Bytes) : Option (List Nat) := utf8DecodeAux l.length l

theorem utf8EncodeChar_ne_nil (c : Nat) : utf8EncodeChar c ≠ [] := by
  unfold utf8EncodeChar
  split_ifs <;> simp

theorem utf8DecodeChar_encode {c : Nat} (h : ValidScalar c) (rest : Bytes) :
    utf8DecodeChar (utf8EncodeChar c ++ rest) = some (c, rest) := by
  obtain ⟨hmax, hsur⟩ := h
  by_cases h1 : c < 128
  · rw [utf8EncodeChar, if_pos h1]
    simp only [List.cons_append, List.nil_append, utf8DecodeChar]
    rw [if_pos h1]
  · by_cases h2 : c < 2048
    · rw [utf8EncodeChar, if_neg h1, if_pos h2]
      simp only [List.cons_append, List.nil_append, utf8DecodeChar]
      rw [if_neg (by omega), if_neg (by omega), if_pos (by omega),
        if_pos (by omega), if_pos (by omega)]
      congr 2
      omega
    · by_cases h3 : c < 65536
      · rw [utf8EncodeChar, if_neg h1, if_neg h2, if_pos h3]
        simp only [List.cons_append, List.nil_append, utf8DecodeChar]
        rw [if_neg (by omega), if_neg (by omega), if_neg (by omega),
          if_pos (by omega), if_pos (by omega), if_pos (by omega)]
        congr 2
        omega
      · rw [utf8EncodeChar, if_neg h1, if_neg h2, if_neg h3]
        simp only [List.cons_append, List.nil_append, utf8DecodeChar]
        rw [if_neg (by omega), if_neg (by omega), if_neg (by omega),
          if_neg (by omega), if_pos (by omega), if_pos (by omega),
          if_pos (by omega)]
        congr 2
        omega

theorem utf8DecodeAux_encode (M : List Nat) :
    ∀ f : Nat, (∀ c ∈ M, ValidScalar c) → (utf8Encode M).length ≤ f →
    utf8DecodeAux f (utf8Encode M) = some M := by
  induction M with
  | nil => intro f _ _; cases f <;> rfl
  | cons c cs ih =>
    intro f hval hlen
    have hc : ValidScalar c := hval c (List.mem_cons_self _ _)
    have hdec := utf8DecodeChar_encode hc (utf8Encode cs)
    rcases hcons : utf8EncodeChar c with _ | ⟨b, t⟩
    · exact absurd hcons (utf8EncodeChar_ne_nil c)
    · simp only [utf8Encode, hcons, List.cons_append] at hdec hlen ⊢
      cases f with
      | zero => simp at hlen
      | succ g =>
        simp only [utf8DecodeAux, hdec]
        have hg : (utf8Encode cs).length ≤ g := by
          simp only [List.length_cons, List.length_append] at hlen
          omega
        rw [ih g (fun x hx => hval x (List.mem_cons_of_mem _ hx)) hg]
        rfl

theorem utf8Decode_encode (M : List Nat) (h : ∀ c ∈ M, ValidScalar c) :
    utf8Decode (utf8Encode M) = some M :=
  utf8DecodeAux_encode M _ h (Nat.le_refl _)

/- ## XOR obfuscation (presentation.py)

`bytes([b ^ self.key[i % len(self.key)] for i, b in enumerate(data)])`,
written with an explicit running index. -/

def xorKeyAux (key : Bytes) (i : Nat) : Bytes → Bytes
  | [] => []
  | b :: rest => (b ^^^ key.getD (i % key.length) 0) :: xorKeyAux key (i + 1) rest

theorem xorKeyAux_involutive (key : Bytes) (i : Nat) (l : Bytes) :
    xorKeyAux key i (xorKeyAux key i l) = l := by
  induction l generalizing i with
  | nil => rfl
  | cons b rest ih =>
    simp only [xorKeyAux]
    rw [Nat.xor_cancel_right, ih]

theorem xorKeyAux_length (key : Bytes) (i : Nat) (l : Bytes) :
    (xorKeyAux key i l).length = l.length := by
  induction l generalizing i with
  | nil => rfl
  | cons b rest ih => simp [xorKeyAux, ih]

/- ## Application stage (layers/application.py) -/

/-- `ApplicationLayer.process_outgoing`: UTF-8-encode the outbound text
    message (modelled as a list of Unicode scalar values). -/
def application_process_outgoing (M : List Nat) : Bytes := utf8Encode M

/-- `ApplicationLayer.process_incoming`: UTF-8-decode; `none` models the
    `UnicodeDecodeError` path that returns Python `None`. -/
def application_process_incoming (data : Bytes) : Option (List Nat) :=
  utf8Decode data

/- ## Presentation stage (layers/presentation.py)

`zlib.compress`/`zlib.decompress` are external library calls; the stage is
parametric in them.  Theorems assume only zlib's contract
`decompress (compress x) = x` (and, where needed, that compressed output is
never empty — a zlib stream always carries a header and trailer).
`decompress` returns `none` for a `zlib.error`. -/

/-- The XOR comprehension
    `bytes([b ^ self.key[i % len(self.key)] for i, b in enumerate(data)])`.
    With an empty key and non-empty data, `i % len(self.key)` divides by
    zero: `none` models the uncaught `ZeroDivisionError`. -/
def xorEncrypt (key data : Bytes) : Option Bytes :=
  if data ≠ [] ∧ key = [] then none
  else some (xorKeyAux key 0 data)

/-- `PresentationLayer.process_outgoing`: compress, then XOR with the
    repeating key. -/
def presentation_process_outgoing (compress : Bytes → Bytes) (key data : Bytes) :
    Option Bytes :=
  xorEncrypt key (compress data)

/-- `PresentationLayer.process_incoming`: XOR with the repeating key, then
    decompress; a `zlib.error` is caught and yields `b''` (the DROP value),
    while a `ZeroDivisionError` from the XOR step propagates (`none`). -/
def presentation_process_incoming (decompress : Bytes → Option Bytes)
    (key data : Bytes) : Option Bytes :=
  match xorEncrypt key data with
  | none => none
  | some decrypted =>
    match decompress decrypted with
    | some d => some d
    | none => some []

/- ## Session stage (layers/session.py) -/

/-- `SessionLayer.process_outgoing`: increment the outbound counter, then
    prepend `struct.pack('!IQ', session_id, sequence)`.  Returns the new
    counter and the framed bytes. -/
def session_process_outgoing (session_id seq : Nat) (data : Bytes) :
    Nat × Bytes :=
  (seq + 1, pack4 session_id ++ pack8 (seq + 1) ++ data)

/-- `SessionLayer.process_incoming`: length check, session-id check, strip
    the 12-byte header (the counter is carried but not validated). -/
def session_process_incoming (session_id : Nat) (data : Bytes) : Bytes :=
  if data.length < 12 then []
  else if unpack4 (data.take 4) ≠ session_id then []
  else data.drop 12

/- ## Transport stage (layers/transport.py) -/

structure TransportState where
  seq : Nat
  expected_seq : Nat
  window_size : Nat
  deriving DecidableEq

/-- `TransportLayer.__init__`: `seq = 0`, `expected_seq = 1`,
    `window_size = 8`. -/
def transport_init : TransportState := ⟨0, 1, 8⟩

/-- `TransportLayer._calculate_checksum`: `zlib.adler32(data) & 0xFFFFFFFF`
    (`x &&& (2^32 - 1)` is `x % 2^32`). -/
def calculate_checksum (data : Bytes) : Nat := adler32 data % 4294967296

/-- `TransportLayer.process_outgoing`: bump `seq` mod 2^16, prepend
    `seq ++ window ++ checksum(seq ++ window ++ data)`. -/
def transport_process_outgoing (st : TransportState) (data : Bytes) :
    TransportState × Bytes :=
  let seq := (st.seq + 1) % 65536
  let seqBytes := pack2 seq
  let window := pack2 st.window_size
  let checksum := pack4 (calculate_checksum (seqBytes ++ window ++ data))
  ({ st with seq := seq }, seqBytes ++ window ++ checksum ++ data)

/-- `TransportLayer.process_incoming`: length check, checksum check over
    `data[:4] + payload`, strict equality of the carried sequence with
    `expected_seq`; on success advance `expected_seq` mod 2^16 and return
    the payload, otherwise return `b''` with the state unchanged. -/
def transport_process_incoming (st : TransportState) (data : Bytes) :
    TransportState × Bytes :=
  if data.length < 8 then (st, [])
  else
    let seq := unpack2 (data.take 2)
    let checksum := (data.drop 4).take 4
    let payload := data.drop 8
    if calculate_checksum (data.take 4 ++ payload) ≠ unpack4 checksum then (st, [])
    else if seq ≠ st.expected_seq then (st, [])
    else ({ st with expected_seq := (st.expected_seq + 1) % 65536 }, payload)

/- ## Network stage (layers/network.py) -/

structure NetworkConfig where
  src_ip : Bytes
  dst_ip : Bytes

/-- `NetworkLayer.process_outgoing`: header is
    `(4 << 4) | 5 = 69`, `ttl = 64`, `src_ip`, `dst_ip`. -/
def network_process_outgoing (c : NetworkConfig) (data : Bytes) : Bytes :=
  69 :: 64 :: (c.src_ip ++ c.dst_ip ++ data)

/-- `NetworkLayer.process_incoming` (layers/network.py): 10-byte minimum,
    version nibble (`data[0] >> 4`) must be 4, destination field
    `data[6:10]` must equal the stage's own `src_ip`; then strip the
    10-byte header. -/
def network_process_incoming (c : NetworkConfig) (data : Bytes) : Bytes :=
  if data.length < 10 then []
  else if data.getD 0 0 / 16 ≠ 4 then []
  else if (data.drop 6).take 4 ≠ c.src_ip then []
  else data.drop 10

/-- `NetworkLayer.process_incoming` in the draft variant osi.py: 7-byte
    minimum, version check only, no destination check. -/
def osi_network_process_incoming (data : Bytes) : Bytes :=
  if data.length < 7 then []
  else if data.getD 0 0 / 16 ≠ 4 then []
  else data.drop 10

/- ## Data-link stage (layers/datalink.py) -/

structure DataLinkConfig where
  src_mac : Bytes
  dst_mac : Bytes

/-- `DataLinkLayer._calculate_fcs`: `zlib.crc32(data) & 0xFFFFFFFF`. -/
def calculate_fcs (data : Bytes) : Nat := crc32 data % 4294967296

/-- `DataLinkLayer.process_outgoing`: `src_mac ++ dst_mac ++ data` followed
    by the 4-byte CRC-32 FCS over everything before it. -/
def datalink_process_outgoing (c : DataLinkConfig) (data : Bytes) : Bytes :=
  let header := c.src_mac ++ c.dst_mac
  header ++ data ++ pack4 (calculate_fcs (header ++ data))

/-- `DataLinkLayer.process_incoming`: 16-byte minimum; the destination
    field `data[6:12]` must equal the stage's own `src_mac`; the CRC-32
    over `data[:-4]` must equal the decoded trailer `data[-4:]`; then
    return `data[12:-4]`. -/
def datalink_process_incoming (c : DataLinkConfig) (data : Bytes) : Bytes :=
  if data.length < 16 then []
  else
    let dst_mac := (data.drop 6).take 6
    let payload := (data.drop 12).take (data.length - 16)
    let fcs := data.drop (data.length - 4)
    if dst_mac ≠ c.src_mac then []
    else if calculate_fcs (data.take (data.length - 4)) ≠ unpack4 fcs then []
    else payload

/- ## Physical stage (layers/physical.py) -/

/-- The frame sentinel `b'\xAA'`. -/
def PREAMBLE : Nat := 170

/-- `PhysicalLayer.process_outgoing`: `preamble ++ pack('!H', len) ++ data`.
    Python raises for payloads of 2^16 bytes or more; theorems only use
    this below that bound. -/
def physical_process_outgoing (data : Bytes) : Bytes :=
  PREAMBLE :: (pack2 data.length ++ data)

/-- `PhysicalLayer.process_incoming`: minimum length, preamble and length
    checks; `none` models the Python `None` returns. -/
def physical_process_incoming (data : Bytes) : Option Bytes :=
  if data.length < 3 then none
  else if data.take 1 ≠ [PREAMBLE] then none
  else
    let len := unpack2 ((data.drop 1).take 2)
    if data.length < len + 3 then none
    else some ((data.drop 3).take len)

/-- The inner `while len(buffer) >= 3` loop of `PhysicalLayer.listen`:
    scan for the preamble (clearing the buffer when absent), drop noise
    before it, parse the length field, stop on an incomplete frame, else
    slice the frame, run `process_incoming` on it and dispatch the result
    via `receive_up` when it is truthy (`if processed_data:` skips both
    `None` and `b''`).  Returns the remaining buffer and the dispatched
    payloads in order.  The fuel argument only bounds the iteration count;
    each full iteration consumes at least 3 bytes, so fuel equal to the
    buffer length never runs out. -/
def drainAux : Nat → Bytes → Bytes × List Bytes
  | 0, buffer => (buffer, [])
  | fuel + 1, buffer =>
    if buffer.length < 3 then (buffer, [])
    else
      match buffer.findIdx? (· == PREAMBLE) with
      | none => ([], [])
      | some pos =>
        let buf1 := buffer.drop pos
        if buf1.length < 3 then (buf1, [])
        else
          let frameLength := unpack2 ((buf1.drop 1).take 2)
          let total := frameLength + 3
          if buf1.length < total then (buf1, [])
          else
            let frame := buf1.take total
            let dispatched :=
              match physical_process_incoming frame with
              | some p => if p = [] then [] else [p]
              | none => []
            let r := drainAux fuel (buf1.drop total)
            (r.1, dispatched ++ r.2)

/-- One pass of the reassembly loop over a buffer. -/
def drainFrames (buffer : Bytes) : Bytes × List Bytes :=
  drainAux buffer.length buffer

/-- `PhysicalLayer.listen` over a sequence of (non-empty) socket reads:
    append each chunk to the buffer, then drain complete frames; collect
    every dispatched payload in order. -/
def listenRun (chunks : List Bytes) : List Bytes :=
  (chunks.foldl
    (fun acc chunk =>
      let r := drainFrames (acc.1 ++ chunk)
      (r.1, acc.2 ++ r.2))
    (([] : Bytes), ([] : List Bytes))).2

/- ## `Layer.receive_up`

The inbound data flow above the physical layer, as a delivery trace: the
list of `data` arguments with which `receive_up` is invoked on each
successive layer, given the `process_incoming` functions of the layers
above the physical layer in upward order (`none` models both a Python
`None` result and an exception caught by the `except` clause — each halts
propagation). -/

/-- `Layer.receive_up` from the draft variant osi.py: on non-empty data,
    run this layer's `process_incoming` and pass the result up only when it
    is neither `None` nor `b''`. -/
def osi_receive_up (procs : List (Bytes → Option Bytes)) (data : Bytes) :
    List Bytes :=
  match procs with
  | [] => []
  | p :: rest =>
    if data = [] then []
    else
      data ::
        match p data with
        | none => []
        | some d => if d = [] then [] else osi_receive_up rest d

/-- `Layer.receive_up` from layers/layer.py (the module main.py runs): on
    non-empty data it forwards `data` to the upper layer unprocessed and
    returns; the `process_incoming` block below that `return` is
    unreachable. -/
def layer_receive_up (procs : List (Bytes → Option Bytes)) (data : Bytes) :
    List Bytes :=
  match procs with
  | [] => []
  | _ :: rest =>
    if data = [] then [] else data :: layer_receive_up rest data

/- ## Full-stack composition (main.py `create_server`/`create_client`)

The outbound chain walks `process_outgoing` from Application down to
Physical; the inbound chain applies the seven `process_incoming` steps in
the reverse order.  Counters are fresh: session counter 0, transport
`seq = 0`, `expected_seq = 1`. -/

structure StackConfig where
  src_mac : Bytes
  dst_mac : Bytes
  src_ip : Bytes
  dst_ip : Bytes
  session_id : Nat
  key : Bytes

def stackSend (cfg : StackConfig) (compress : Bytes → Bytes) (M : List Nat) :
    Option Bytes :=
  match presentation_process_outgoing compress cfg.key
      (application_process_outgoing M) with
  | none => none
  | some pres =>
    let sess := (session_process_outgoing cfg.session_id 0 pres).2
    let seg := (transport_process_outgoing transport_init sess).2
    let pkt := network_process_outgoing ⟨cfg.src_ip, cfg.dst_ip⟩ seg
    let frame := datalink_process_outgoing ⟨cfg.src_mac, cfg.dst_mac⟩ pkt
    some (physical_process_outgoing frame)

def stackRecv (cfg : StackConfig) (decompress : Bytes → Option Bytes)
    (wire : Bytes) : Option (List Nat) :=
  match physical_process_incoming wire with
  | none => none
  | some frame =>
    let pkt := datalink_process_incoming ⟨cfg.src_mac, cfg.dst_mac⟩ frame
    let seg := network_process_incoming ⟨cfg.src_ip, cfg.dst_ip⟩ pkt
    let sess := (transport_process_incoming transport_init seg).2
    let pres := session_process_incoming cfg.session_id sess
    match presentation_process_incoming decompress cfg.key pres with
    | none => none
    | some dec => application_process_incoming dec

/- ## Per-stage round-trip lemmas -/

theorem calculate_fcs_lt (l : Bytes) : calculate_fcs l < 4294967296 :=
  Nat.mod_lt _ (by norm_num)

theorem calculate_checksum_lt (l : Bytes) : calculate_checksum l < 4294967296 :=
  Nat.mod_lt _ (by norm_num)

theorem physical_roundtrip (data : Bytes) (h : data.length < 65536) :
    physical_process_incoming (physical_process_outgoing data) = some data := by
  simp only [physical_process_outgoing, pack2, List.cons_append, List.nil_append]
  simp only [physical_process_incoming, List.length_cons]
  rw [if_neg (by omega)]
  rw [if_neg (by simp [PREAMBLE])]
  simp only [List.drop_succ_cons, List.drop_zero, List.take_succ_cons,
    List.take_zero, unpack2, List.getD_cons_zero, List.getD_cons_succ]
  rw [if_neg (by omega)]
  have hn : data.length / 256 % 256 * 256 + data.length % 256 = data.length := by
    omega
  rw [hn, List.take_length]

theorem datalink_roundtrip (A B data : Bytes) (hA : A.length = 6)
    (hB : B.length = 6) :
    datalink_process_incoming ⟨B, A⟩ (datalink_process_outgoing ⟨A, B⟩ data) =
      data := by
  simp only [datalink_process_outgoing, datalink_process_incoming]
  have hlen : ((A ++ B) ++ data ++ pack4 (calculate_fcs ((A ++ B) ++ data))).length
      = data.length + 16 := by
    simp [pack4, hA, hB]
    omega
  rw [hlen]
  rw [if_neg (by omega)]
  have hassoc : (A ++ B) ++ data ++ pack4 (calculate_fcs ((A ++ B) ++ data))
      = A ++ (B ++ (data ++ pack4 (calculate_fcs ((A ++ B) ++ data)))) := by
    simp [List.append_assoc]
  have hdst : (((A ++ B) ++ data ++ pack4 (calculate_fcs ((A ++ B) ++ data))).drop 6).take 6
      = B := by
    rw [hassoc, List.drop_left' hA]
    rw [List.take_left' hB]
  rw [hdst, if_neg (by simp)]
  have htail : data.length + 16 - 4 = ((A ++ B) ++ data).length := by
    simp [hA, hB]
    omega
  have htake : ((A ++ B) ++ data ++ pack4 (calculate_fcs ((A ++ B) ++ data))).take
      (data.length + 16 - 4) = (A ++ B) ++ data := by
    rw [show (A ++ B) ++ data ++ pack4 (calculate_fcs ((A ++ B) ++ data))
        = ((A ++ B) ++ data) ++ pack4 (calculate_fcs ((A ++ B) ++ data)) from by
      simp [List.append_assoc]]
    exact List.take_left' htail.symm
  have hdrop : ((A ++ B) ++ data ++ pack4 (calculate_fcs ((A ++ B) ++ data))).drop
      (data.length + 16 - 4) = pack4 (calculate_fcs ((A ++ B) ++ data)) := by
    rw [show (A ++ B) ++ data ++ pack4 (calculate_fcs ((A ++ B) ++ data))
        = ((A ++ B) ++ data) ++ pack4 (calculate_fcs ((A ++ B) ++ data)) from by
      simp [List.append_assoc]]
    exact List.drop_left' htail.symm
  rw [htake, hdrop, unpack4_pack4 (calculate_fcs_lt _)]
  rw [if_neg (by simp)]
  have hdrop12 : ((A ++ B) ++ data ++ pack4 (calculate_fcs ((A ++ B) ++ data))).drop 12
      = data ++ pack4 (calculate_fcs ((A ++ B) ++ data)) := by
    rw [show (A ++ B) ++ data ++ pack4 (calculate_fcs ((A ++ B) ++ data))
        = ((A ++ B)) ++ (data ++ pack4 (calculate_fcs ((A ++ B) ++ data))) from by
      simp [List.append_assoc]]
    exact List.drop_left' (by simp [hA, hB])
  rw [hdrop12]
  rw [show data.length + 16 - 16 = data.length from by omega]
  exact List.take_left' rfl

theorem network_roundtrip (IA IB data : Bytes) (hA : IA.length = 4)
    (hB : IB.length = 4) :
    network_process_incoming ⟨IB, IA⟩ (network_process_outgoing ⟨IA, IB⟩ data) =
      data := by
  simp only [network_process_outgoing, network_process_incoming]
  rw [if_neg (by simp [hA, hB]; omega)]
  rw [if_neg (by simp)]
  have hshape : (69 : Nat) :: 64 :: (IA ++ IB ++ data)
      = (69 :: 64 :: IA) ++ (IB ++ data) := by
    simp
  have hdst : (((69 : Nat) :: 64 :: (IA ++ IB ++ data)).drop 6).take 4 = IB := by
    rw [hshape, List.drop_left' (by simp [hA]), List.take_left' hB]
  rw [hdst, if_neg (by simp)]
  have hshape10 : (69 : Nat) :: 64 :: (IA ++ IB ++ data)
      = (69 :: 64 :: (IA ++ IB)) ++ data := by
    simp
  rw [hshape10, List.drop_left' (by simp [hA, hB])]

theorem session_roundtrip (sid s : Nat) (data : Bytes) (h : sid < 4294967296) :
    session_process_incoming sid (session_process_outgoing sid s data).2 =
      data := by
  simp only [session_process_outgoing, session_process_incoming]
  rw [if_neg (by simp [pack4, pack8])]
  have htake : (pack4 sid ++ (pack8 (s + 1) ++ data)).take 4 = pack4 sid :=
    List.take_left' rfl
  rw [List.append_assoc, htake, unpack4_pack4 h]
  rw [if_neg (by simp)]
  rw [show (12 : Nat) = ((pack4 sid ++ pack8 (s + 1)).length) from by
    simp [pack4, pack8]]
  rw [← List.append_assoc, List.drop_left]

theorem transport_decode_encode (st r : TransportState) (data : Bytes)
    (h : (st.seq + 1) % 65536 = r.expected_seq) :
    transport_process_incoming r (transport_process_outgoing st data).2 =
      ({ r with expected_seq := (r.expected_seq + 1) % 65536 }, data) := by
  simp only [transport_process_outgoing, transport_process_incoming,
    pack2, pack4, List.cons_append, List.nil_append]
  rw [if_neg (by simp)]
  simp only [List.take_succ_cons, List.take_zero, List.drop_succ_cons,
    List.drop_zero, unpack2, unpack4, List.getD_cons_zero, List.getD_cons_succ]
  rw [if_neg (by
    simp only [calculate_checksum, List.cons_append, List.nil_append]
    omega)]
  rw [if_neg (by
    have hq : (st.seq + 1) % 65536 < 65536 := Nat.mod_lt _ (by norm_num)
    omega)]

theorem presentation_roundtrip (compress : Bytes → Bytes)
    (decompress : Bytes → Option Bytes) (key data : Bytes) (hk : key ≠ [])
    (hinv : ∀ x, decompress (compress x) = some x) :
    (presentation_process_outgoing compress key data).bind
      (presentation_process_incoming decompress key) = some data := by
  have h1 : presentation_process_outgoing compress key data
      = some (xorKeyAux key 0 (compress data)) := by
    simp only [presentation_process_outgoing, xorEncrypt]
    rw [if_neg (by simp [hk])]
  rw [h1, Option.some_bind]
  simp only [presentation_process_incoming, xorEncrypt]
  rw [if_neg (by simp [hk])]
  simp only [xorKeyAux_involutive, hinv]

/- ## Transport: sequence-mismatch drop -/

theorem transport_decode_wrong_seq (st r : TransportState) (data : Bytes)
    (h : (st.seq + 1) % 65536 ≠ r.expected_seq) :
    transport_process_incoming r (transport_process_outgoing st data).2 =
      (r, []) := by
  simp only [transport_process_outgoing, transport_process_incoming,
    pack2, pack4, List.cons_append, List.nil_append]
  rw [if_neg (by simp)]
  simp only [List.take_succ_cons, List.take_zero, List.drop_succ_cons,
    List.drop_zero, unpack2, unpack4, List.getD_cons_zero, List.getD_cons_succ]
  rw [if_neg (by
    simp only [calculate_checksum, List.cons_append, List.nil_append]
    omega)]
  rw [if_pos (by omega)]

/- ## Claim theorems -/

/-- C1: the claim says that on the inbound path every layer above the
    Physical layer, on `receive_up` with non-empty bytes, applies its own
    `process_incoming` and passes the result up only when it is neither
    `None` nor empty, a drop halting all further propagation.  The draft
    variant osi.py implements exactly that, but layers/layer.py — the module
    main.py actually runs — returns right after forwarding the raw data to
    the upper layer, leaving its own `process_incoming` block (and the
    comments describing it) unreachable: with a first stage whose
    `process_incoming` drops everything, the stage above it still receives
    the unprocessed data. -/
theorem c1_layer_receive_up_skips_processing :
    layer_receive_up [fun _ => none, fun d => some d] [1] = [[1], [1]] ∧
    osi_receive_up [fun _ => none, fun d => some d] [1] = [[1]] :=
  ⟨rfl, rfl⟩

/-- C4: `TransportLayer.process_incoming` returns the payload and advances
    `expected_seq` by one mod 2^16 precisely when the input is at least 8
    bytes, the recomputed checksum over the received sequence, window and
    payload equals the carried checksum, and the carried sequence equals
    `expected_seq`; otherwise it returns `b''` with the state unchanged.
    Consequently, after one successful exchange (expected counter 2) a
    duplicate with sequence 1 and a gap with sequence 3 are dropped, and
    only sequence 2 succeeds. -/
theorem c4_transport_incoming_characterization :
    (∀ (st : TransportState) (data : Bytes),
      transport_process_incoming st data =
        if 8 ≤ data.length ∧
            calculate_checksum (data.take 4 ++ data.drop 8) =
              unpack4 ((data.drop 4).take 4) ∧
            unpack2 (data.take 2) = st.expected_seq
        then ({ st with expected_seq := (st.expected_seq + 1) % 65536 },
              data.drop 8)
        else (st, []))
    ∧ (∀ p1 p2 p3 : Bytes,
        transport_process_incoming transport_init
            (transport_process_outgoing transport_init p1).2 =
          (⟨0, 2, 8⟩, p1) ∧
        transport_process_incoming ⟨0, 2, 8⟩
            (transport_process_outgoing transport_init p1).2 =
          (⟨0, 2, 8⟩, []) ∧
        transport_process_incoming ⟨0, 2, 8⟩
            (transport_process_outgoing
              (transport_process_outgoing
                (transport_process_outgoing transport_init p1).1 p2).1 p3).2 =
          (⟨0, 2, 8⟩, []) ∧
        transport_process_incoming ⟨0, 2, 8⟩
            (transport_process_outgoing
              (transport_process_outgoing transport_init p1).1 p2).2 =
          (⟨0, 3, 8⟩, p2)) := by
  constructor
  · intro st data
    unfold transport_process_incoming
    by_cases h1 : data.length < 8
    · rw [if_pos h1, if_neg (fun hcon => by omega)]
    · rw [if_neg h1]
      by_cases h2 : calculate_checksum (data.take 4 ++ data.drop 8) ≠
          unpack4 ((data.drop 4).take 4)
      · rw [if_pos h2, if_neg (fun hcon => h2 hcon.2.1)]
      · rw [if_neg h2]
        by_cases h3 : unpack2 (data.take 2) ≠ st.expected_seq
        · rw [if_pos h3, if_neg (fun hcon => h3 hcon.2.2)]
        · rw [if_neg h3,
            if_pos ⟨by omega, not_ne_iff.mp h2, not_ne_iff.mp h3⟩]
  · intro p1 p2 p3
    have hs1 : (transport_process_outgoing transport_init p1).1 = ⟨1, 1, 8⟩ :=
      rfl
    have hs2 : (transport_process_outgoing
        (transport_process_outgoing transport_init p1).1 p2).1 = ⟨2, 1, 8⟩ := by
      rw [hs1]; rfl
    refine ⟨?_, ?_, ?_, ?_⟩
    · have h := transport_decode_encode transport_init transport_init p1
        (by norm_num [transport_init])
      simpa [transport_init] using h
    · exact transport_decode_wrong_seq transport_init ⟨0, 2, 8⟩ p1
        (by norm_num [transport_init])
    · rw [hs2]
      exact transport_decode_wrong_seq ⟨2, 1, 8⟩ ⟨0, 2, 8⟩ p3 (by norm_num)
    · rw [hs1]
      have h := transport_decode_encode ⟨1, 1, 8⟩ ⟨0, 2, 8⟩ p2 (by norm_num)
      simpa using h

/-- C5: `DataLinkLayer.process_incoming` returns the enclosed payload
    exactly when the frame is at least 16 bytes, the destination field
    (bytes 6..12) equals the receiving stage's own local address
    (`self.src_mac`) and the recomputed CRC-32 over everything but the
    4-byte trailer equals the decoded trailer, and `b''` otherwise; a frame
    encoded by a sender whose (local, peer) pair is the receiver's
    (peer, local) pair passes the address check and decodes to its
    payload. -/
theorem c5_datalink_incoming_characterization :
    (∀ (c : DataLinkConfig) (data : Bytes),
      datalink_process_incoming c data =
        if 16 ≤ data.length ∧ (data.drop 6).take 6 = c.src_mac ∧
            calculate_fcs (data.take (data.length - 4)) =
              unpack4 (data.drop (data.length - 4))
        then (data.drop 12).take (data.length - 16) else [])
    ∧ (∀ A B payload : Bytes, A.length = 6 → B.length = 6 →
        datalink_process_incoming ⟨B, A⟩
          (datalink_process_outgoing ⟨A, B⟩ payload) = payload) := by
  constructor
  · intro c data
    unfold datalink_process_incoming
    by_cases h1 : data.length < 16
    · rw [if_pos h1, if_neg (fun hcon => by omega)]
    · rw [if_neg h1]
      by_cases h2 : (data.drop 6).take 6 ≠ c.src_mac
      · rw [if_pos h2, if_neg (fun hcon => h2 hcon.2.1)]
      · rw [if_neg h2]
        by_cases h3 : calculate_fcs (data.take (data.length - 4)) ≠
            unpack4 (data.drop (data.length - 4))
        · rw [if_pos h3, if_neg (fun hcon => h3 hcon.2.2)]
        · rw [if_neg h3,
            if_pos ⟨by omega, not_ne_iff.mp h2, not_ne_iff.mp h3⟩]
  · exact fun A B payload hA hB => datalink_roundtrip A B payload hA hB

/-- Witness for C5 at a concrete frame. -/
theorem c5_witness :
    datalink_process_incoming ⟨[10, 11, 12, 13, 14, 15], [1, 2, 3, 4, 5, 6]⟩
      (datalink_process_outgoing ⟨[1, 2, 3, 4, 5, 6], [10, 11, 12, 13, 14, 15]⟩
        [99, 100]) = [99, 100] :=
  c5_datalink_incoming_characterization.2 [1, 2, 3, 4, 5, 6]
    [10, 11, 12, 13, 14, 15] [99, 100] rfl rfl

/-- C6: `NetworkLayer.process_incoming` (layers/network.py) drops (returns
    `b''`) when the packet is shorter than 10 bytes, when the version
    nibble of the first byte is not 4, or when the destination field
    (bytes 6..10) differs from the stage's own local address
    (`self.src_ip`), and otherwise strips exactly the 10-byte header. -/
theorem c6_network_incoming_characterization (c : NetworkConfig) (data : Bytes) :
    network_process_incoming c data =
      if 10 ≤ data.length ∧ data.getD 0 0 / 16 = 4 ∧
          (data.drop 6).take 4 = c.src_ip
      then data.drop 10 else [] := by
  unfold network_process_incoming
  by_cases h1 : data.length < 10
  · rw [if_pos h1, if_neg (fun hcon => by omega)]
  · rw [if_neg h1]
    by_cases h2 : data.getD 0 0 / 16 ≠ 4
    · rw [if_pos h2, if_neg (fun hcon => h2 hcon.2.1)]
    · rw [if_neg h2]
      by_cases h3 : (data.drop 6).take 4 ≠ c.src_ip
      · rw [if_pos h3, if_neg (fun hcon => h3 hcon.2.2)]
      · rw [if_neg h3,
          if_pos ⟨by omega, not_ne_iff.mp h2, not_ne_iff.mp h3⟩]

/-- C8: for every payload P, Presentation decode of Presentation encode of
    P yields P back, for any non-empty key and any compressor satisfying
    zlib's round-trip contract: the byte-wise repeating-key XOR is
    self-inverse and decompression undoes compression. -/
theorem c8_presentation_roundtrip (compress : Bytes → Bytes)
    (decompress : Bytes → Option Bytes) (key P : Bytes) (hk : key ≠ [])
    (hinv : ∀ x, decompress (compress x) = some x) :
    (presentation_process_outgoing compress key P).bind
      (presentation_process_incoming decompress key) = some P :=
  presentation_roundtrip compress decompress key P hk hinv

/-- Witness for C8 with a concrete invertible compressor, the key
    `b'secret'` and payload `[1, 2]`. -/
theorem c8_witness :
    (presentation_process_outgoing (fun l => 0 :: l)
        [115, 101, 99, 114, 101, 116] [1, 2]).bind
      (presentation_process_incoming (fun l => if l = [] then none else some l.tail)
        [115, 101, 99, 114, 101, 116]) = some [1, 2] :=
  c8_presentation_roundtrip (fun l => 0 :: l)
    (fun l => if l = [] then none else some l.tail)
    [115, 101, 99, 114, 101, 116] [1, 2] (by decide) (fun x => rfl)

/-- C10: with an empty key, the Presentation stage's XOR comprehension
    evaluates `key[i % 0]` and raises `ZeroDivisionError` (modelled as
    `none`, distinct from the DROP value `some []`): `process_outgoing`
    raises for every input because compressed output is never empty, and
    `process_incoming` raises for every non-empty input (the `except`
    clause catches only `zlib.error`). -/
theorem c10_presentation_empty_key (compress : Bytes → Bytes)
    (decompress : Bytes → Option Bytes) (hc : ∀ x, compress x ≠ []) :
    (∀ data : Bytes, presentation_process_outgoing compress [] data = none)
    ∧ (∀ data : Bytes, data ≠ [] →
        presentation_process_incoming decompress [] data = none) := by
  constructor
  · intro data
    simp only [presentation_process_outgoing, xorEncrypt]
    rw [if_pos ⟨hc data, by trivial⟩]
  · intro data hd
    simp only [presentation_process_incoming, xorEncrypt]
    rw [if_pos ⟨hd, by trivial⟩]

/-- Witness for C10 at concrete inputs. -/
theorem c10_witness :
    presentation_process_outgoing (fun l => 0 :: l) [] [5] = none ∧
    presentation_process_incoming (fun l => if l = [] then none else some l.tail)
      [] [7] = none :=
  ⟨(c10_presentation_empty_key (fun l => 0 :: l)
      (fun l => if l = [] then none else some l.tail)
      (fun x => List.cons_ne_nil 0 x)).1 [5],
   (c10_presentation_empty_key (fun l => 0 :: l)
      (fun l => if l = [] then none else some l.tail)
      (fun x => List.cons_ne_nil 0 x)).2 [7] (by decide)⟩


theorem drainAux_nil (f : Nat) : drainAux f [] = ([], []) := by
  cases f <;> rfl

theorem findIdx?_preamble_append (noise l : Bytes)
    (hn : ∀ b ∈ noise, b ≠ PREAMBLE) :
    (noise ++ l).findIdx? (· == PREAMBLE) =
      (l.findIdx? (· == PREAMBLE)).map (· + noise.length) := by
  induction noise with
  | nil =>
    simp only [List.nil_append, List.length_nil]
    cases l.findIdx? (· == PREAMBLE) <;> simp
  | cons a rest ih =>
    have ha : (a == PREAMBLE) = false := by
      have := hn a (List.mem_cons_self _ _)
      simp [this]
    simp only [List.cons_append, List.findIdx?_cons, ha, Bool.false_eq_true,
      if_false, List.findIdx?_start_succ]
    rw [ih (fun b hb => hn b (List.mem_cons_of_mem _ hb))]
    cases l.findIdx? (· == PREAMBLE)
    · simp
    · simp
      omega

theorem physical_out_shape (p : Bytes) :
    physical_process_outgoing p =
      [PREAMBLE, p.length / 256 % 256, p.length % 256] ++ p := by
  simp [physical_process_outgoing, pack2]

theorem drainAux_succ_noise_frame (fuel : Nat) (noise p rest : Bytes)
    (hn : ∀ b ∈ noise, b ≠ PREAMBLE) (hp : p.length < 65536) :
    drainAux (fuel + 1) (noise ++ (physical_process_outgoing p ++ rest)) =
      ((drainAux fuel rest).1,
        (if p = [] then [] else [p]) ++ (drainAux fuel rest).2) := by
  have hfind : (noise ++ (physical_process_outgoing p ++ rest)).findIdx?
      (· == PREAMBLE) = some noise.length := by
    rw [findIdx?_preamble_append _ _ hn]
    rw [physical_out_shape]
    simp [List.findIdx?_cons]
  have hdropn : (noise ++ (physical_process_outgoing p ++ rest)).drop noise.length
      = physical_process_outgoing p ++ rest := List.drop_left _ _
  have houtlen : (physical_process_outgoing p).length = p.length + 3 := by
    rw [physical_out_shape]
    simp
  have hlenbuf : 3 ≤ (noise ++ (physical_process_outgoing p ++ rest)).length := by
    simp [houtlen]
    omega
  have hparse : unpack2 (((physical_process_outgoing p ++ rest).drop 1).take 2)
      = p.length := by
    rw [physical_out_shape]
    simp only [List.cons_append, List.nil_append, List.drop_succ_cons,
      List.drop_zero, List.take_succ_cons, List.take_zero, unpack2,
      List.getD_cons_zero, List.getD_cons_succ]
    omega
  have hlist3 : ([PREAMBLE, p.length / 256 % 256, p.length % 256] : Bytes).length
      = 3 := rfl
  have htake : (physical_process_outgoing p ++ rest).take (p.length + 3)
      = physical_process_outgoing p := by
    rw [physical_out_shape, List.append_assoc,
      show p.length + 3 = ([PREAMBLE, p.length / 256 % 256, p.length % 256] : Bytes).length
        + p.length from by rw [hlist3]; omega,
      List.take_append, List.take_left' rfl]
  have hdropt : (physical_process_outgoing p ++ rest).drop (p.length + 3)
      = rest := by
    rw [physical_out_shape, List.append_assoc,
      show p.length + 3 = ([PREAMBLE, p.length / 256 % 256, p.length % 256] : Bytes).length
        + p.length from by rw [hlist3]; omega,
      List.drop_append, List.drop_left' rfl]
  simp only [drainAux]
  rw [if_neg (by omega), hfind]
  simp only [hdropn, hparse, List.length_append, houtlen, htake, hdropt,
    physical_roundtrip p hp]
  rw [if_neg (by omega), if_neg (by omega)]


theorem drainAux_irrel : ∀ f1 f2 : Nat, ∀ buf : Bytes, buf.length ≤ f1 →
    buf.length ≤ f2 → drainAux f1 buf = drainAux f2 buf := by
  intro f1
  induction f1 with
  | zero =>
    intro f2 buf h1 h2
    have hb : buf = [] := List.eq_nil_of_length_eq_zero (by omega)
    subst hb
    rw [drainAux_nil, drainAux_nil]
  | succ g1 ih =>
    intro f2 buf h1 h2
    cases f2 with
    | zero =>
      have hb : buf = [] := List.eq_nil_of_length_eq_zero (by omega)
      subst hb
      rw [drainAux_nil, drainAux_nil]
    | succ g2 =>
      simp only [drainAux]
      by_cases h3 : buf.length < 3
      · rw [if_pos h3, if_pos h3]
      · rw [if_neg h3, if_neg h3]
        cases hf : buf.findIdx? (· == PREAMBLE) with
        | none => rfl
        | some pos =>
          dsimp only
          by_cases h4 : (buf.drop pos).length < 3
          · rw [if_pos h4, if_pos h4]
          · rw [if_neg h4, if_neg h4]
            by_cases h5 : (buf.drop pos).length <
                unpack2 (((buf.drop pos).drop 1).take 2) + 3
            · rw [if_pos h5, if_pos h5]
            · rw [if_neg h5, if_neg h5]
              have hx : ((buf.drop pos).drop
                  (unpack2 (((buf.drop pos).drop 1).take 2) + 3)).length ≤ g1 := by
                simp only [List.length_drop]
                omega
              have hy : ((buf.drop pos).drop
                  (unpack2 (((buf.drop pos).drop 1).take 2) + 3)).length ≤ g2 := by
                simp only [List.length_drop]
                omega
              rw [ih g2 _ hx hy]

theorem drainFrames_partial_front (p : Bytes) (hp : p.length < 65536)
    (k : Nat) (hk1 : 0 < k) (hk2 : k < (physical_process_outgoing p).length) :
    drainFrames ((physical_process_outgoing p).take k) =
      ((physical_process_outgoing p).take k, []) := by
  have houtlen : (physical_process_outgoing p).length = p.length + 3 := by
    rw [physical_out_shape]
    simp
  have hklen : ((physical_process_outgoing p).take k).length = k := by
    simp only [List.length_take]
    omega
  unfold drainFrames
  rw [hklen]
  by_cases h3 : k < 3
  · obtain ⟨g, rfl⟩ : ∃ g, k = g + 1 := ⟨k - 1, by omega⟩
    simp only [drainAux]
    rw [if_pos (by rw [hklen]; omega)]
  · obtain ⟨g2, rfl⟩ : ∃ g2, k = g2 + 3 := ⟨k - 3, by omega⟩
    have hshape : (physical_process_outgoing p).take (g2 + 3)
        = PREAMBLE :: p.length / 256 % 256 :: p.length % 256 :: p.take g2 := by
      rw [physical_out_shape]
      simp only [List.cons_append, List.nil_append, List.take_succ_cons]
    rw [hshape]
    rw [drainAux]
    rw [if_neg (by simp only [List.length_cons]; omega)]
    rw [show (PREAMBLE :: p.length / 256 % 256 :: p.length % 256 :: p.take g2).findIdx?
        (· == PREAMBLE) = some 0 from by simp [List.findIdx?_cons]]
    dsimp only
    simp only [List.drop_zero, List.drop_succ_cons, List.take_succ_cons,
      List.take_zero, unpack2, List.getD_cons_zero, List.getD_cons_succ,
      List.length_cons]
    rw [if_neg (by omega)]
    rw [if_pos (by
      have : (p.take g2).length = min g2 p.length := List.length_take g2 p
      have hmin : (p.take g2).length ≤ g2 := by omega
      omega)]

theorem drainFrames_frame (p rest : Bytes) (hp : p.length < 65536) :
    drainFrames (physical_process_outgoing p ++ rest) =
      ((drainFrames rest).1,
        (if p = [] then [] else [p]) ++ (drainFrames rest).2) := by
  have houtlen : (physical_process_outgoing p).length = p.length + 3 := by
    rw [physical_out_shape]
    simp
  unfold drainFrames
  obtain ⟨g, hg⟩ : ∃ g, (physical_process_outgoing p ++ rest).length = g + 1 :=
    ⟨(physical_process_outgoing p ++ rest).length - 1,
      by simp [houtlen]; omega⟩
  rw [hg]
  have h0 := drainAux_succ_noise_frame g [] p rest (by simp) hp
  simp only [List.nil_append] at h0
  rw [h0]
  have hrest : drainAux g rest = drainAux rest.length rest := by
    apply drainAux_irrel
    · simp only [List.length_append] at hg
      omega
    · omega
  rw [hrest]

theorem drainFrames_noise_frame (noise p : Bytes)
    (hn : ∀ b ∈ noise, b ≠ PREAMBLE) (hp : p.length < 65536) :
    drainFrames (noise ++ physical_process_outgoing p) =
      ([], if p = [] then [] else [p]) := by
  have houtlen : (physical_process_outgoing p).length = p.length + 3 := by
    rw [physical_out_shape]
    simp
  unfold drainFrames
  obtain ⟨g, hg⟩ : ∃ g, (noise ++ physical_process_outgoing p).length = g + 1 :=
    ⟨(noise ++ physical_process_outgoing p).length - 1,
      by simp [houtlen]; omega⟩
  rw [hg]
  have h0 := drainAux_succ_noise_frame g noise p [] hn hp
  simp only [List.append_nil] at h0
  rw [h0, drainAux_nil]
  simp

/-- C3 (amended): splitting one well-formed physical frame with NON-EMPTY
    payload into two non-empty reads at any offset (a split inside the
    2-byte length field included) dispatches exactly one payload equal to
    the original, and one read holding two concatenated frames with
    non-empty payloads dispatches exactly their two payloads in stream
    order.  (The non-emptiness is forced by `if processed_data:` in
    `PhysicalLayer.listen`, which skips the dispatch when the extracted
    payload is `b''` — see the counterexample.) -/
theorem c3_frame_reassembly (p p1 p2 : Bytes) (hp : p ≠ [])
    (hlen : p.length < 65536) (k : Nat) (hk1 : 0 < k)
    (hk2 : k < (physical_process_outgoing p).length) (h1 : p1 ≠ [])
    (h1l : p1.length < 65536) (h2 : p2 ≠ []) (h2l : p2.length < 65536) :
    listenRun [(physical_process_outgoing p).take k,
        (physical_process_outgoing p).drop k] = [p] ∧
    listenRun [physical_process_outgoing p1 ++ physical_process_outgoing p2]
      = [p1, p2] := by
  constructor
  · simp only [listenRun, List.foldl_cons, List.foldl_nil, List.nil_append]
    rw [drainFrames_partial_front p hlen k hk1 hk2]
    simp only [List.take_append_drop]
    have hframe := drainFrames_noise_frame [] p (by simp) hlen
    simp only [List.nil_append] at hframe
    rw [hframe, if_neg hp]
    simp
  · simp only [listenRun, List.foldl_cons, List.foldl_nil, List.nil_append]
    rw [drainFrames_frame p1 _ h1l]
    have hframe := drainFrames_noise_frame [] p2 (by simp) h2l
    simp only [List.nil_append] at hframe
    rw [hframe, if_neg h1, if_neg h2]
    simp

/-- C3 counterexample: the well-formed frame of the empty payload
    (`b'\xAA\x00\x00'`), split after its first byte, dispatches NO payload
    at all — `listen` extracts the frame but `if processed_data:` is false
    for `b''` — where the claim as stated demands exactly one dispatched
    payload equal to the original. -/
theorem c3_counterexample :
    physical_process_outgoing [] = [170, 0, 0] ∧
    listenRun [[170], [0, 0]] = [] := ⟨rfl, rfl⟩

/-- Witness for C3 at payloads `[1]` and `[2]` and split offset 1. -/
theorem c3_witness :
    listenRun [(physical_process_outgoing [1]).take 1,
        (physical_process_outgoing [1]).drop 1] = [[1]] ∧
    listenRun [physical_process_outgoing [1] ++ physical_process_outgoing [2]]
      = [[1], [2]] :=
  c3_frame_reassembly [1] [1] [2] (by decide) (by decide) 1 (by decide)
    (by decide) (by decide) (by decide) (by decide) (by decide)

/-- C7 (amended): noise containing no sentinel byte followed by one
    well-formed frame with NON-EMPTY payload: the reassembly pass discards
    the noise (ending with an empty buffer) and dispatches exactly the
    frame's payload.  (Non-emptiness is forced by `if processed_data:` —
    see the counterexample.) -/
theorem c7_garbage_resync (noise p : Bytes) (hn : ∀ b ∈ noise, b ≠ PREAMBLE)
    (hp : p ≠ []) (hlen : p.length < 65536) :
    drainFrames (noise ++ physical_process_outgoing p) = ([], [p]) := by
  rw [drainFrames_noise_frame noise p hn hlen, if_neg hp]

/-- C7 counterexample: one noise byte followed by the well-formed frame of
    the empty payload: the noise is discarded but nothing is dispatched,
    where the claim as stated demands the frame's payload to be
    dispatched. -/
theorem c7_counterexample :
    ¬ (5 : Nat) = PREAMBLE ∧
    drainFrames ([5] ++ physical_process_outgoing []) = ([], []) :=
  ⟨by decide, rfl⟩

/-- Witness for C7 at noise `[5]` and payload `[1, 2]`. -/
theorem c7_witness :
    drainFrames ([5] ++ physical_process_outgoing [1, 2]) = ([], [[1, 2]]) :=
  c7_garbage_resync [5] [1, 2] (by decide) (by decide) (by decide)

/-- C2: for every text message M and matching configuration — mirrored
    local/peer link and network addresses on the two endpoints, equal
    session id, equal shared secret — running the seven `process_outgoing`
    stages in order Application, Presentation, Session, Transport, Network,
    DataLink, Physical with fresh counters and then the seven
    `process_incoming` stages in reverse order on the receiving stack with
    fresh counters yields exactly M.  The compressor is abstract under
    zlib's round-trip contract; the message must fit one physical frame
    (compressed size + 46 bytes of headers below 2^16, where Python's
    `struct.pack('!H', …)` would raise instead). -/
theorem c2_full_stack_roundtrip (compress : Bytes → Bytes)
    (decompress : Bytes → Option Bytes)
    (hinv : ∀ x, decompress (compress x) = some x)
    (A B IA IB : Bytes) (hA : A.length = 6) (hB : B.length = 6)
    (hIA : IA.length = 4) (hIB : IB.length = 4)
    (sid : Nat) (hsid : sid < 4294967296) (key : Bytes) (hkey : key ≠ [])
    (M : List Nat) (hM : ∀ c ∈ M, ValidScalar c)
    (hsize : (compress (utf8Encode M)).length + 46 < 65536) :
    (stackSend ⟨A, B, IA, IB, sid, key⟩ compress M).bind
      (stackRecv ⟨B, A, IB, IA, sid, key⟩ decompress) = some M := by
  have hpres : presentation_process_outgoing compress key
      (application_process_outgoing M)
      = some (xorKeyAux key 0 (compress (utf8Encode M))) := by
    simp only [presentation_process_outgoing, application_process_outgoing,
      xorEncrypt]
    rw [if_neg (by simp [hkey])]
  simp only [stackSend, hpres, Option.some_bind]
  simp only [stackRecv]
  have hfl : (datalink_process_outgoing ⟨A, B⟩
      (network_process_outgoing ⟨IA, IB⟩
        (transport_process_outgoing transport_init
          (session_process_outgoing sid 0
            (xorKeyAux key 0 (compress (utf8Encode M)))).2).2)).length < 65536 := by
    simp only [datalink_process_outgoing, network_process_outgoing,
      transport_process_outgoing, session_process_outgoing]
    simp only [List.length_append, List.length_cons, pack2_length, pack4_length,
      pack8_length, hA, hB, xorKeyAux_length]
    omega
  rw [physical_roundtrip _ hfl]
  dsimp only
  rw [datalink_roundtrip A B _ hA hB]
  rw [network_roundtrip IA IB _ hIA hIB]
  rw [transport_decode_encode transport_init transport_init _
    (by norm_num [transport_init])]
  simp only []
  rw [session_roundtrip sid 0 _ hsid]
  have hpin : presentation_process_incoming decompress key
      (xorKeyAux key 0 (compress (utf8Encode M))) = some (utf8Encode M) := by
    simp only [presentation_process_incoming, xorEncrypt]
    rw [if_neg (by simp [hkey])]
    simp only [xorKeyAux_involutive, hinv]
  rw [hpin]
  simp only [application_process_incoming, utf8Decode_encode M hM]

/-- Witness for C2 with a concrete invertible compressor, concrete mirrored
    addresses, session id 1234, the key `b'secret'` and the message
    `"Hi"`. -/
theorem c2_witness :
    (stackSend ⟨[1, 2, 3, 4, 5, 6], [7, 8, 9, 10, 11, 12], [10, 0, 0, 1],
        [10, 0, 0, 2], 1234, [115, 101, 99, 114, 101, 116]⟩
      (fun l => 0 :: l) [72, 105]).bind
      (stackRecv ⟨[7, 8, 9, 10, 11, 12], [1, 2, 3, 4, 5, 6], [10, 0, 0, 2],
        [10, 0, 0, 1], 1234, [115, 101, 99, 114, 101, 116]⟩
        (fun l => if l = [] then none else some l.tail)) = some [72, 105] :=
  c2_full_stack_roundtrip (fun l => 0 :: l)
    (fun l => if l = [] then none else some l.tail) (fun x => rfl)
    [1, 2, 3, 4, 5, 6] [7, 8, 9, 10, 11, 12] [10, 0, 0, 1] [10, 0, 0, 2]
    rfl rfl rfl rfl 1234 (by decide) [115, 101, 99, 114, 101, 116] (by decide)
    [72, 105] (by decide) (by decide)

/- ## Single-bit-flip helpers -/

theorem slice_getD (l : Bytes) (a n i : Nat) (hi : i < n) :
    ((l.drop a).take n).getD i 0 = l.getD (a + i) 0 := by
  rw [List.getD_eq_getElem?_getD, List.getD_eq_getElem?_getD,
    List.getElem?_take, if_pos hi, List.getElem?_drop]

theorem set_slice_outside (l : Bytes) (j v a n : Nat) (h : j < a ∨ a + n ≤ j) :
    ((l.set j v).drop a).take n = (l.drop a).take n := by
  apply List.ext_getElem?
  intro i
  rw [List.getElem?_take, List.getElem?_take]
  by_cases hi : i < n
  · rw [if_pos hi, if_pos hi, List.getElem?_drop, List.getElem?_drop,
      List.getElem?_set_ne (by omega)]
  · rw [if_neg hi, if_neg hi]

theorem set_drop_high (l : Bytes) (j v a : Nat) (h : j < a) :
    (l.set j v).drop a = l.drop a := by
  apply List.ext_getElem?
  intro i
  rw [List.getElem?_drop, List.getElem?_drop, List.getElem?_set_ne (by omega)]

theorem set_take_comm (l : Bytes) (j v n : Nat) (h : j < n) :
    (l.set j v).take n = (l.take n).set j v := by
  apply List.ext_getElem?
  intro i
  rw [List.getElem?_take, List.getElem?_set, List.getElem?_set,
    List.getElem?_take]
  by_cases hij : j = i
  · subst hij
    rw [if_pos rfl, if_pos rfl, if_pos h]
    simp only [List.length_take]
    by_cases hjl : j < l.length
    · rw [if_pos hjl, if_pos (lt_inf_iff.mpr ⟨h, hjl⟩)]
    · rw [if_neg hjl, if_neg (fun hcon => hjl (lt_inf_iff.mp hcon).2)]
  · rw [if_neg hij, if_neg hij]

theorem calculate_fcs_set_ne (l : Bytes) (i v : Nat)
    (hwf : ∀ b ∈ l, b < 256) (hi : i < l.length) (hv : v < 256)
    (hne : v ≠ l.getD i 0) :
    calculate_fcs (l.set i v) ≠ calculate_fcs l := by
  have hb : l.getD i 0 = l[i] := List.getD_eq_getElem l 0 hi
  have hwfpre : ∀ x ∈ l.take i, x < 256 :=
    fun x hx => hwf x (List.take_subset _ _ hx)
  have hwfpost : ∀ x ∈ l.drop (i + 1), x < 256 :=
    fun x hx => hwf x (List.drop_subset _ _ hx)
  have hbl : l[i] < 256 := hwf _ (List.getElem_mem hi)
  have hdecomp : l = l.take i ++ l[i] :: l.drop (i + 1) := by
    conv_lhs => rw [← List.take_append_drop i l,
      ← List.getElem_cons_drop l i hi]
  have hset : l.set i v = l.take i ++ v :: l.drop (i + 1) :=
    List.set_eq_take_cons_drop v hi
  have hwf1 : ∀ x ∈ l.take i ++ v :: l.drop (i + 1), x < 256 := by
    intro x hx
    rcases List.mem_append.mp hx with hx | hx
    · exact hwfpre x hx
    · rcases List.mem_cons.mp hx with hx | hx
      · omega
      · exact hwfpost x hx
  have hwf2 : ∀ x ∈ l.take i ++ l[i] :: l.drop (i + 1), x < 256 := by
    intro x hx
    rcases List.mem_append.mp hx with hx | hx
    · exact hwfpre x hx
    · rcases List.mem_cons.mp hx with hx | hx
      · omega
      · exact hwfpost x hx
  have hc := crc32_middle_ne hwfpre hwfpost hv hbl (by rw [hb] at hne; exact hne)
  rw [hset]
  rw [show calculate_fcs l = calculate_fcs (l.take i ++ l[i] :: l.drop (i + 1))
    from by rw [← hdecomp]]
  simp only [calculate_fcs]
  rw [Nat.mod_eq_of_lt (crc32_lt hwf1), Nat.mod_eq_of_lt (crc32_lt hwf2)]
  exact hc

/-- C9: for every well-formed link frame the Addressing stage accepts
    (length, destination and FCS checks all pass), flipping any single bit
    of any byte outside the 4-byte trailer makes decode return `b''`: a
    flip inside the destination field fails the address comparison, and a
    flip anywhere else changes the CRC-32 (the per-byte CRC state update is
    injective, so a one-byte difference propagates to the final value) and
    fails the FCS comparison. -/
theorem c9_datalink_bitflip_drop (c : DataLinkConfig) (frame : Bytes)
    (hwf : ∀ b ∈ frame, b < 256) (hlen : 16 ≤ frame.length)
    (hdst : (frame.drop 6).take 6 = c.src_mac)
    (hfcs : calculate_fcs (frame.take (frame.length - 4)) =
      unpack4 (frame.drop (frame.length - 4)))
    (i k : Nat) (hi : i < frame.length - 4) (hk : k < 8) :
    datalink_process_incoming c
      (frame.set i (frame.getD i 0 ^^^ 2 ^ k)) = [] := by
  have hil : i < frame.length := by omega
  have hb : frame.getD i 0 = frame[i] := List.getD_eq_getElem frame 0 hil
  have hbm : frame.getD i 0 < 256 := by
    rw [hb]
    exact hwf _ (List.getElem_mem hil)
  have h2k : (2 : Nat) ^ k < 256 := by interval_cases k <;> norm_num
  have hvlt : frame.getD i 0 ^^^ 2 ^ k < 256 := by
    have h8 : frame.getD i 0 ^^^ 2 ^ k < 2 ^ 8 :=
      Nat.xor_lt_two_pow (by omega) (by omega)
    omega
  have hvb : frame.getD i 0 ^^^ 2 ^ k ≠ frame.getD i 0 := by
    intro hcon
    have h0 : frame.getD i 0 ^^^ 2 ^ k = frame.getD i 0 ^^^ 0 := by
      rw [Nat.xor_zero]
      exact hcon
    have h1 : (2 : Nat) ^ k = 0 := Nat.xor_right_injective h0
    exact absurd h1 (by positivity)
  have hlen' : (frame.set i (frame.getD i 0 ^^^ 2 ^ k)).length = frame.length :=
    List.length_set frame i _
  unfold datalink_process_incoming
  rw [hlen']
  rw [if_neg (by omega)]
  by_cases hreg : 6 ≤ i ∧ i < 12
  · have hslice : ((frame.set i (frame.getD i 0 ^^^ 2 ^ k)).drop 6).take 6 ≠
        c.src_mac := by
      intro heq
      have e1 : (((frame.set i (frame.getD i 0 ^^^ 2 ^ k)).drop 6).take 6).getD
          (i - 6) 0 = frame.getD i 0 ^^^ 2 ^ k := by
        rw [slice_getD _ _ _ _ (by omega), show 6 + (i - 6) = i from by omega,
          List.getD_eq_getElem?_getD, List.getElem?_set_self hil]
        rfl
      have e2 : ((frame.drop 6).take 6).getD (i - 6) 0 = frame.getD i 0 := by
        rw [slice_getD _ _ _ _ (by omega), show 6 + (i - 6) = i from by omega]
      rw [heq] at e1
      rw [hdst] at e2
      rw [e2] at e1
      exact hvb e1.symm
    rw [if_pos hslice]
  · have hstable : ((frame.set i (frame.getD i 0 ^^^ 2 ^ k)).drop 6).take 6 =
        (frame.drop 6).take 6 :=
      set_slice_outside frame i _ 6 6 (by omega)
    rw [hstable, hdst, if_neg (by simp)]
    have htr : (frame.set i (frame.getD i 0 ^^^ 2 ^ k)).drop (frame.length - 4) =
        frame.drop (frame.length - 4) :=
      set_drop_high frame i _ (frame.length - 4) (by omega)
    have hts : (frame.set i (frame.getD i 0 ^^^ 2 ^ k)).take (frame.length - 4) =
        (frame.take (frame.length - 4)).set i (frame.getD i 0 ^^^ 2 ^ k) :=
      set_take_comm frame i _ (frame.length - 4) (by omega)
    have hwft : ∀ b ∈ frame.take (frame.length - 4), b < 256 :=
      fun x hx => hwf x (List.take_subset _ _ hx)
    have hit : i < (frame.take (frame.length - 4)).length := by
      simp only [List.length_take]
      omega
    have hgd : (frame.take (frame.length - 4)).getD i 0 = frame.getD i 0 := by
      rw [List.getD_eq_getElem?_getD, List.getD_eq_getElem?_getD,
        List.getElem?_take, if_pos (by omega)]
    have hcrc : calculate_fcs ((frame.take (frame.length - 4)).set i
        (frame.getD i 0 ^^^ 2 ^ k)) ≠
        calculate_fcs (frame.take (frame.length - 4)) := by
      apply calculate_fcs_set_ne _ _ _ hwft hit hvlt
      rw [hgd]
      exact hvb
    rw [htr, hts]
    rw [if_pos (by rw [← hfcs]; exact hcrc)]

/-- Witness for C9: a concrete accepted frame with payload `[77]`, flipping
    bit 0 of the payload byte (offset 12). -/
theorem c9_witness :
    datalink_process_incoming ⟨[10, 11, 12, 13, 14, 15], [1, 2, 3, 4, 5, 6]⟩
      ((datalink_process_outgoing ⟨[1, 2, 3, 4, 5, 6], [10, 11, 12, 13, 14, 15]⟩
          [77]).set 12
        ((datalink_process_outgoing ⟨[1, 2, 3, 4, 5, 6], [10, 11, 12, 13, 14, 15]⟩
          [77]).getD 12 0 ^^^ 2 ^ 0)) = [] :=
  c9_datalink_bitflip_drop ⟨[10, 11, 12, 13, 14, 15], [1, 2, 3, 4, 5, 6]⟩
    (datalink_process_outgoing ⟨[1, 2, 3, 4, 5, 6], [10, 11, 12, 13, 14, 15]⟩ [77])
    (by decide) (by decide) (by decide) (by decide) 12 0 (by decide) (by decide)

end OSI
